import Mathlib

set_option maxRecDepth 100000

/-!
Verification development for the B12 application submission script
(`submit_application.py`).  The script builds a compact JSON payload,
signs it with HMAC-SHA256, POSTs it to a fixed endpoint and interprets
the JSON response.  We embed each of these pieces as executable Lean
definitions and prove the specification claims about them.
-/

namespace B12

/-! ## JSON values (the result of Python `json.loads`) -/

/-- JSON values as decoded by the Python `json` module.  Numbers decode to
`int` when written without fraction or exponent and to `float` otherwise;
floats are modelled by their decimal components (sign, integer part,
fraction digits, exponent), which determines Python truthiness except for
extreme exponent underflow, which is not modelled.  `NaN`, `Infinity` and
`-Infinity` are accepted by the Python decoder and get their own
constructors. -/
inductive JValue where
  | null
  | jbool (b : Bool)
  | jint (n : Int)
  | jfloat (neg : Bool) (ip : Nat) (frac : List Nat) (ex : Int)
  | jnan
  | jinf (neg : Bool)
  | jstr (s : String)
  | jarr (elems : List JValue)
  | jobj (fields : List (String × JValue))

/-! ## The compact JSON encoder used by `create_payload`

`json.dumps(payload, separators=(",", ":"), ensure_ascii=False)` escapes
`"` and `\`, writes the control characters BS, FF, LF, CR and TAB with
their short escapes, writes the remaining characters below 0x20 as
`\u00xx` with lowercase hex, and copies every other character verbatim. -/

/-- Lowercase hexadecimal digit character, as produced by Python `%x`
formatting and by the `\u%04x` escapes of `json.dumps`. -/
def hexChar (n : Nat) : Char :=
  if n < 10 then Char.ofNat (48 + n) else Char.ofNat (87 + n)

/-- Four lowercase hex digits of a number below 0x10000 (Python `"\u%04x"`). -/
def hex4 (n : Nat) : List Char :=
  [hexChar (n / 4096 % 16), hexChar (n / 256 % 16), hexChar (n / 16 % 16), hexChar (n % 16)]

/-- Escaping of one character by `json.dumps` with `ensure_ascii=False`
(the `ESCAPE_DCT` of Python's `json.encoder`). -/
def encChar (c : Char) : List Char :=
  if c = '\\' then ['\\', '\\']
  else if c = '\"' then ['\\', '\"']
  else if c = '\x08' then ['\\', 'b']
  else if c = '\x0c' then ['\\', 'f']
  else if c = '\n' then ['\\', 'n']
  else if c = '\r' then ['\\', 'r']
  else if c = '\t' then ['\\', 't']
  else if c.toNat < 32 then '\\' :: 'u' :: hex4 c.toNat
  else [c]

/-- Rendering of a Python string as a JSON string literal by `json.dumps`
with `ensure_ascii=False`. -/
def encString (s : String) : List Char :=
  '\"' :: s.data.flatMap encChar ++ ['\"']

/-- Items of a dict serialized by `json.dumps` with separators `(",", ":")`:
`"key":"value"` joined by commas, no whitespace. -/
def dumpsItems : List (String × String) → List Char
  | [] => []
  | [kv] => encString kv.1 ++ ':' :: encString kv.2
  | kv :: rest => encString kv.1 ++ ':' :: encString kv.2 ++ ',' :: dumpsItems rest

/-- Serialization of a string-valued dict by
`json.dumps(d, separators=(",", ":"), ensure_ascii=False)`: keys in
insertion order, item separator `,`, key separator `:`, no whitespace.
(Braces are written `\x7b`/`\x7d` throughout this file.) -/
def dumpsFlat (kvs : List (String × String)) : List Char :=
  '\x7b' :: dumpsItems kvs ++ ['\x7d']

/-! ## Timestamp formatting

`datetime.datetime.now(datetime.timezone.utc).isoformat(timespec='milliseconds')`
prints `YYYY-MM-DDTHH:MM:SS.mmm+00:00` with zero-padded decimal fields,
and the script then applies `.replace('+00:00', 'Z')`. -/

/-- UTC instant with millisecond precision: the reading of
`datetime.datetime.now(datetime.timezone.utc)` at the moment
`create_payload` is called.  Field ranges follow `datetime`:
`1 ≤ year ≤ 9999`, `1 ≤ month ≤ 12`, `1 ≤ day ≤ 31`, `hour ≤ 23`,
`minute ≤ 59`, `second ≤ 59`, `millisecond ≤ 999`. -/
structure DateTimeUTC where
  year : Nat
  month : Nat
  day : Nat
  hour : Nat
  minute : Nat
  second : Nat
  millisecond : Nat

/-- Zero-padded fixed-width decimal (C `%0*d` for nonnegative input), as used
by `datetime.isoformat`. -/
def padDec (w n : Nat) : List Char :=
  List.replicate (w - (Nat.toDigits 10 n).length) '0' ++ Nat.toDigits 10 n

/-- Date-time part of `isoformat(timespec='milliseconds')`:
`YYYY-MM-DDTHH:MM:SS.mmm` with zero-padded decimal fields. -/
def isoStem (t : DateTimeUTC) : List Char :=
  padDec 4 t.year ++ '-' :: padDec 2 t.month ++ '-' :: padDec 2 t.day ++
  'T' :: padDec 2 t.hour ++ ':' :: padDec 2 t.minute ++ ':' :: padDec 2 t.second ++
  '.' :: padDec 3 t.millisecond

/-- Output of `isoformat(timespec='milliseconds')` on an aware UTC datetime:
date and time with millisecond fraction followed by the `+00:00` offset. -/
def isoRaw (t : DateTimeUTC) : List Char :=
  isoStem t ++ ['+', '0', '0', ':', '0', '0']

/-- Fuel-driven worker for Python `str.replace`: leftmost-first,
non-overlapping replacement of every occurrence. -/
def replaceAux (pat rep : List Char) : Nat → List Char → List Char
  | 0, s => s
  | _+1, [] => []
  | fuel+1, c :: cs =>
    if pat.isPrefixOf (c :: cs) then rep ++ replaceAux pat rep fuel ((c :: cs).drop pat.length)
    else c :: replaceAux pat rep fuel cs

/-- Python `s.replace(pat, rep)` on character lists (for nonempty `pat`). -/
def pyReplace (s pat rep : List Char) : List Char := replaceAux pat rep s.length s

/-- The timestamp written into the payload:
`isoformat(timespec='milliseconds').replace('+00:00', 'Z')`. -/
def isoMillisUTC (t : DateTimeUTC) : List Char :=
  pyReplace (isoRaw t) ['+', '0', '0', ':', '0', '0'] ['Z']

/-! ## `create_payload` -/

/-- The payload dict literal of `create_payload`, in its insertion order
(which is alphabetical).  The `now` argument stands for the
`datetime.now(timezone.utc)` reading taken inside the call. -/
def payloadFields (name email resume_link repository_link action_run_link : String)
    (now : DateTimeUTC) : List (String × String) :=
  [("action_run_link", action_run_link),
   ("email", email),
   ("name", name),
   ("repository_link", repository_link),
   ("resume_link", resume_link),
   ("timestamp", ⟨isoMillisUTC now⟩)]

/-- Function `create_payload`: build the dict and serialize it with
`json.dumps(payload, separators=(",", ":"), ensure_ascii=False)`. -/
def create_payload (name email resume_link repository_link action_run_link : String)
    (now : DateTimeUTC) : String :=
  ⟨dumpsFlat (payloadFields name email resume_link repository_link action_run_link now)⟩

/-! ## Structural scan: characters outside JSON string literals

To state "no whitespace between tokens" we scan the serialized output and
collect every character that is not part of a string literal.  The scan
state records whether we are inside a literal; a backslash inside a
literal skips the following character. -/

/-- Scan state: outside any string literal, inside a literal, or inside a
literal right after a backslash. -/
inductive ScanSt where
  | outside
  | inside
  | esc

/-- Characters of a serialized JSON document lying outside its string
literals; a backslash inside a literal escapes the next character. -/
def outsideChars : ScanSt → List Char → List Char
  | _, [] => []
  | .esc, _ :: cs => outsideChars .inside cs
  | .inside, c :: cs =>
    if c = '\\' then outsideChars .esc cs
    else if c = '\"' then outsideChars .outside cs
    else outsideChars .inside cs
  | .outside, c :: cs =>
    if c = '\"' then outsideChars .inside cs else c :: outsideChars .outside cs

/-! ## A reference JSON parser (Python `json.loads`)

The script's response handling calls `json.loads`, and the spec's
round-trip property needs a reference parser.  We embed the grammar the
Python pure-Python scanner (`json.scanner.py_make_scanner` with the
default hooks) accepts: optional `NaN` / `Infinity` constants, strict
string literals (unescaped control characters rejected), `0|[1-9][0-9]*`
integer parts, objects and arrays with interspersed whitespace, last
duplicate object key winning.  One deviation: a `\uXXXX` escape denoting
a lone surrogate yields a parse failure here (Lean characters cannot hold
surrogates), where Python would keep the lone surrogate in the string. -/

/-- Whitespace skipped by the Python json scanner. -/
def jWs (c : Char) : Bool := c = ' ' || c = '\t' || c = '\n' || c = '\r'

/-- Drops leading json whitespace. -/
def skipWs (s : List Char) : List Char := s.dropWhile jWs

/-- Value of one hex digit of a `\uXXXX` escape. -/
def hexVal? (c : Char) : Option Nat :=
  if '0' ≤ c ∧ c ≤ '9' then some (c.toNat - 48)
  else if 'a' ≤ c ∧ c ≤ 'f' then some (c.toNat - 87)
  else if 'A' ≤ c ∧ c ≤ 'F' then some (c.toNat - 55)
  else none

/-- Short backslash escapes of the json string grammar (`\u` is handled
separately). -/
def escChar? (c : Char) : Option Char :=
  if c = '\"' then some '\"'
  else if c = '\\' then some '\\'
  else if c = '/' then some '/'
  else if c = 'b' then some '\x08'
  else if c = 'f' then some '\x0c'
  else if c = 'n' then some '\n'
  else if c = 'r' then some '\r'
  else if c = 't' then some '\t'
  else none

/-- Parses the body of a json string literal (the part after the opening
quote), returning the decoded characters and the input after the closing
quote.  Fuel-driven; every step consumes at least one character, so fuel
equal to the input length always suffices. -/
def parseStringBody : Nat → List Char → Option (List Char × List Char)
  | 0, _ => none
  | _+1, [] => none
  | fuel+1, c0 :: rest0 =>
    if c0 = '\"' then some ([], rest0)
    else if c0 = '\\' then
      match rest0 with
      | [] => none
      | e :: rest1 =>
        if e = 'u' then
          match rest1 with
          | a :: b :: c :: d :: rest =>
            match hexVal? a, hexVal? b, hexVal? c, hexVal? d with
            | some x1, some x2, some x3, some x4 =>
              let v := ((x1 * 16 + x2) * 16 + x3) * 16 + x4
              if v < 0xd800 ∨ 0xdfff < v then
                (parseStringBody fuel rest).map (fun p => (Char.ofNat v :: p.1, p.2))
              else if v ≤ 0xdbff then
                match rest with
                | e2 :: u2 :: a2 :: b2 :: c2 :: d2 :: rest2 =>
                  if e2 = '\\' ∧ u2 = 'u' then
                    match hexVal? a2, hexVal? b2, hexVal? c2, hexVal? d2 with
                    | some y1, some y2, some y3, some y4 =>
                      let w := ((y1 * 16 + y2) * 16 + y3) * 16 + y4
                      if 0xdc00 ≤ w ∧ w ≤ 0xdfff then
                        (parseStringBody fuel rest2).map
                          (fun p =>
                            (Char.ofNat (0x10000 + (v - 0xd800) * 1024 + (w - 0xdc00)) :: p.1, p.2))
                      else none
                    | _, _, _, _ => none
                  else none
                | _ => none
              else none
            | _, _, _, _ => none
          | _ => none
        else
          match escChar? e with
          | some c => (parseStringBody fuel rest1).map (fun p => (c :: p.1, p.2))
          | none => none
    else if c0.toNat < 32 then none
    else (parseStringBody fuel rest0).map (fun p => (c0 :: p.1, p.2))

/-- Decimal digit test of the json number grammar. -/
def isDig (c : Char) : Bool := '0' ≤ c && c ≤ '9'

/-- Numeric value of a digit string. -/
def digitsToNat (ds : List Char) : Nat :=
  ds.foldl (fun acc c => acc * 10 + (c.toNat - 48)) 0

/-- Integer-part rule of Python's json `NUMBER_RE`: `0` or a nonzero
digit followed by digits (no leading zeros). -/
def intPartOk (ds : List Char) : Bool :=
  match ds with
  | [] => false
  | c :: rest => !(c = '0' && !rest.isEmpty)

/-- Exponent tail of the json number grammar: optional sign then at least
one digit; with no digit the exponent group does not match and the input
resumes at `orig`. -/
def expTail (t orig : List Char) : Option Int × List Char :=
  let sp : Bool × List Char :=
    match t with
    | [] => (false, t)
    | c :: u => if c = '+' then (false, u) else if c = '-' then (true, u) else (false, t)
  let q := sp.2.span isDig
  if q.1.isEmpty then (none, orig)
  else (some (if sp.1 then -(digitsToNat q.1 : Int) else (digitsToNat q.1 : Int)), q.2)

/-- Parses a json number per Python's `NUMBER_RE`; ints stay ints, a
fraction or exponent makes a float (kept as decimal components). -/
def parseNumber (s : List Char) : Option (JValue × List Char) :=
  let sp : Bool × List Char :=
    match s with
    | [] => (false, s)
    | c :: t => if c = '-' then (true, t) else (false, s)
  let p1 := sp.2.span isDig
  if intPartOk p1.1 then
    let pf : Option (List Char) × List Char :=
      match p1.2 with
      | [] => (none, p1.2)
      | c :: t =>
        if c = '.' then
          let q := t.span isDig
          if q.1.isEmpty then (none, p1.2) else (some q.1, q.2)
        else (none, p1.2)
    let pe : Option Int × List Char :=
      match pf.2 with
      | [] => (none, pf.2)
      | c :: t => if c = 'e' ∨ c = 'E' then expTail t pf.2 else (none, pf.2)
    match pf.1, pe.1 with
    | none, none =>
      some (.jint (if sp.1 then -(digitsToNat p1.1 : Int) else (digitsToNat p1.1 : Int)), pe.2)
    | f, e =>
      some (.jfloat sp.1 (digitsToNat p1.1) ((f.getD []).map (fun c => c.toNat - 48)) (e.getD 0), pe.2)
  else none

/-- Request selector for the fuel-driven json parser. -/
inductive PMode where
  | value
  | members
  | elements

/-- Result of one fuel-driven json parse request. -/
inductive PRes where
  | rVal (v : JValue)
  | rMembers (kvs : List (String × JValue))
  | rElems (vs : List JValue)

/-- Checks that the input starts with the expected literal characters and
returns the remainder (Python `startswith` on the keyword constants). -/
def stripLit : List Char → List Char → Option (List Char)
  | [], s => some s
  | _ :: _, [] => none
  | c :: cs, x :: xs => if x = c then stripLit cs xs else none

/-- Fuel-driven recursive descent over the json grammar: a value, the
members of an object (input starts at the first key, the closing brace is
consumed), or the elements of an array.  Fuel decreases at each nesting
or iteration step; callers pass ample fuel. -/
def parseJ : Nat → PMode → List Char → Option (PRes × List Char)
  | 0, _, _ => none
  | f+1, .value, s =>
    match skipWs s with
    | [] => none
    | c :: rest =>
      if c = '\x7b' then
        match skipWs rest with
        | [] => none
        | c2 :: rest2 =>
          if c2 = '\x7d' then some (.rVal (.jobj []), rest2)
          else
            match parseJ f .members (c2 :: rest2) with
            | some (.rMembers kvs, rest3) => some (.rVal (.jobj kvs), rest3)
            | _ => none
      else if c = '[' then
        match skipWs rest with
        | [] => none
        | c2 :: rest2 =>
          if c2 = ']' then some (.rVal (.jarr []), rest2)
          else
            match parseJ f .elements (c2 :: rest2) with
            | some (.rElems vs, rest3) => some (.rVal (.jarr vs), rest3)
            | _ => none
      else if c = '\"' then
        match parseStringBody rest.length rest with
        | some (cs, rest2) => some (.rVal (.jstr ⟨cs⟩), rest2)
        | none => none
      else if c = 't' then
        match stripLit ['r', 'u', 'e'] rest with
        | some rest2 => some (.rVal (.jbool true), rest2)
        | none => none
      else if c = 'f' then
        match stripLit ['a', 'l', 's', 'e'] rest with
        | some rest2 => some (.rVal (.jbool false), rest2)
        | none => none
      else if c = 'n' then
        match stripLit ['u', 'l', 'l'] rest with
        | some rest2 => some (.rVal .null, rest2)
        | none => none
      else if c = 'N' then
        match stripLit ['a', 'N'] rest with
        | some rest2 => some (.rVal .jnan, rest2)
        | none => none
      else if c = 'I' then
        match stripLit ['n', 'f', 'i', 'n', 'i', 't', 'y'] rest with
        | some rest2 => some (.rVal (.jinf false), rest2)
        | none => none
      else if c = '-' then
        match stripLit ['I', 'n', 'f', 'i', 'n', 'i', 't', 'y'] rest with
        | some rest2 => some (.rVal (.jinf true), rest2)
        | none =>
          match parseNumber (c :: rest) with
          | some (v, rest2) => some (.rVal v, rest2)
          | none => none
      else
        match parseNumber (c :: rest) with
        | some (v, rest2) => some (.rVal v, rest2)
        | none => none
  | f+1, .members, s =>
    match s with
    | [] => none
    | c :: rest =>
      if c = '\"' then
        match parseStringBody rest.length rest with
        | some (kcs, rest2) =>
          match skipWs rest2 with
          | [] => none
          | c2 :: rest3 =>
            if c2 = ':' then
              match parseJ f .value rest3 with
              | some (.rVal v, rest4) =>
                match skipWs rest4 with
                | [] => none
                | c3 :: rest5 =>
                  if c3 = ',' then
                    match parseJ f .members (skipWs rest5) with
                    | some (.rMembers kvs, rest6) => some (.rMembers ((⟨kcs⟩, v) :: kvs), rest6)
                    | _ => none
                  else if c3 = '\x7d' then some (.rMembers [(⟨kcs⟩, v)], rest5)
                  else none
              | _ => none
            else none
        | none => none
      else none
  | f+1, .elements, s =>
    match parseJ f .value s with
    | some (.rVal v, rest) =>
      match skipWs rest with
      | [] => none
      | c :: rest2 =>
        if c = ',' then
          match parseJ f .elements (skipWs rest2) with
          | some (.rElems vs, rest3) => some (.rElems (v :: vs), rest3)
          | _ => none
        else if c = ']' then some (.rElems [v], rest2)
        else none
    | _ => none

/-- Python `json.loads`: parse one value, allow trailing whitespace only;
anything else raises `JSONDecodeError` (modelled as `none`). -/
def json_loads (body : String) : Option JValue :=
  match parseJ (2 * body.length + 8) .value body.data with
  | some (.rVal v, rest) => if skipWs rest = [] then some v else none
  | _ => none

/-! ## SHA-256 and HMAC (`hashlib.sha256`, `hmac.new(...).hexdigest()`)

Bytes are naturals below 256, 32-bit words are naturals kept below 2^32
by explicit truncation. -/

/-- Truncation to 32 bits. -/
def m32 (n : Nat) : Nat := n % 4294967296

/-- Right rotation of a 32-bit word. -/
def rotr (n w : Nat) : Nat := m32 ((w >>> n) ||| (w <<< (32 - n)))

/-- SHA-256 round constants (FIPS 180-4), written in decimal. -/
def shaK : List Nat :=
  [1116352408, 1899447441, 3049323471, 3921009573, 961987163,
   1508970993, 2453635748, 2870763221, 3624381080, 310598401,
   607225278, 1426881987, 1925078388, 2162078206, 2614888103,
   3248222580, 3835390401, 4022224774, 264347078, 604807628,
   770255983, 1249150122, 1555081692, 1996064986, 2554220882,
   2821834349, 2952996808, 3210313671, 3336571891, 3584528711,
   113926993, 338241895, 666307205, 773529912, 1294757372,
   1396182291, 1695183700, 1986661051, 2177026350, 2456956037,
   2730485921, 2820302411, 3259730800, 3345764771, 3516065817,
   3600352804, 4094571909, 275423344, 430227734, 506948616,
   659060556, 883997877, 958139571, 1322822218, 1537002063,
   1747873779, 1955562222, 2024104815, 2227730452, 2361852424,
   2428436474, 2756734187, 3204031479, 3329325298]

/-- Eight-word SHA-256 state. -/
structure Hash8 where
  a : Nat
  b : Nat
  c : Nat
  d : Nat
  e : Nat
  f : Nat
  g : Nat
  h : Nat

/-- SHA-256 initial state (FIPS 180-4), written in decimal. -/
def shaH0 : Hash8 :=
  ⟨1779033703, 3144134277, 1013904242, 2773480762,
   1359893119, 2600822924, 528734635, 1541459225⟩

/-- FIPS 180-4 lowercase sigma 0. -/
def ssig0 (x : Nat) : Nat := (rotr 7 x) ^^^ (rotr 18 x) ^^^ (x >>> 3)

/-- FIPS 180-4 lowercase sigma 1. -/
def ssig1 (x : Nat) : Nat := (rotr 17 x) ^^^ (rotr 19 x) ^^^ (x >>> 10)

/-- FIPS 180-4 uppercase Sigma 0. -/
def bsig0 (x : Nat) : Nat := (rotr 2 x) ^^^ (rotr 13 x) ^^^ (rotr 22 x)

/-- FIPS 180-4 uppercase Sigma 1. -/
def bsig1 (x : Nat) : Nat := (rotr 6 x) ^^^ (rotr 11 x) ^^^ (rotr 25 x)

/-- Big-endian bytes of a 64-byte block as 32-bit words. -/
def toWords : List Nat → List Nat
  | b0 :: b1 :: b2 :: b3 :: rest => (((b0 * 256 + b1) * 256 + b2) * 256 + b3) :: toWords rest
  | _ => []

/-- One extension step of the message schedule, on the reversed word list. -/
def scheduleStep (r : List Nat) : List Nat :=
  m32 (ssig1 (r.getD 1 0) + r.getD 6 0 + ssig0 (r.getD 14 0) + r.getD 15 0) :: r

/-- Message schedule: the 16 block words extended to 64. -/
def schedule (w16 : List Nat) : List Nat :=
  ((List.range 48).foldl (fun r _ => scheduleStep r) w16.reverse).reverse

/-- One SHA-256 round (the 32-bit complement is xor with the all-ones mask). -/
def roundStep (s : Hash8) (kw : Nat × Nat) : Hash8 :=
  let ch := (s.e &&& s.f) ^^^ ((s.e ^^^ 0xffffffff) &&& s.g)
  let maj := (s.a &&& s.b) ^^^ (s.a &&& s.c) ^^^ (s.b &&& s.c)
  let t1 := m32 (s.h + bsig1 s.e + ch + kw.1 + kw.2)
  let t2 := m32 (bsig0 s.a + maj)
  ⟨m32 (t1 + t2), s.a, s.b, s.c, m32 (s.d + t1), s.e, s.f, s.g⟩

/-- Compression of one 64-byte block into the state. -/
def compress (s : Hash8) (block : List Nat) : Hash8 :=
  let fin := (shaK.zip (schedule (toWords block))).foldl roundStep s
  ⟨m32 (s.a + fin.a), m32 (s.b + fin.b), m32 (s.c + fin.c), m32 (s.d + fin.d),
   m32 (s.e + fin.e), m32 (s.f + fin.f), m32 (s.g + fin.g), m32 (s.h + fin.h)⟩

/-- Big-endian bytes of a 64-bit length field. -/
def be64 (n : Nat) : List Nat :=
  [(n >>> 56) % 256, (n >>> 48) % 256, (n >>> 40) % 256, (n >>> 32) % 256,
   (n >>> 24) % 256, (n >>> 16) % 256, (n >>> 8) % 256, n % 256]

/-- Big-endian bytes of a 32-bit word. -/
def be32 (n : Nat) : List Nat :=
  [(n >>> 24) % 256, (n >>> 16) % 256, (n >>> 8) % 256, n % 256]

/-- SHA-256 padding: `0x80`, zeros to 56 mod 64, 64-bit big-endian bit length. -/
def shaPad (msg : List Nat) : List Nat :=
  msg ++ 0x80 :: List.replicate ((119 - msg.length % 64) % 64) 0 ++ be64 ((8 * msg.length) % 2 ^ 64)

/-- Fuel-driven split into 64-byte blocks. -/
def chunks64 : Nat → List Nat → List (List Nat)
  | 0, _ => []
  | _, [] => []
  | f+1, l => l.take 64 :: chunks64 f (l.drop 64)

/-- SHA-256 digest of a byte sequence. -/
def sha256 (msg : List Nat) : List Nat :=
  let p := shaPad msg
  let s := (chunks64 p.length p).foldl compress shaH0
  be32 s.a ++ be32 s.b ++ be32 s.c ++ be32 s.d ++ be32 s.e ++ be32 s.f ++ be32 s.g ++ be32 s.h

/-- HMAC-SHA256 per `hmac.py` (RFC 2104): block size 64, long keys hashed
first, key zero-padded to the block size, inner pad `0x36`, outer `0x5c`. -/
def hmacSha256 (key msg : List Nat) : List Nat :=
  let k1 := if 64 < key.length then sha256 key else key
  let k2 := k1 ++ List.replicate (64 - k1.length) 0
  sha256 ((k2.map (fun b => b ^^^ 0x5c)) ++ sha256 ((k2.map (fun b => b ^^^ 0x36)) ++ msg))

/-- Lowercase hex of one byte (`%02x`). -/
def byteHex (b : Nat) : List Char := [hexChar (b / 16), hexChar (b % 16)]

/-- Lowercase hex string of a byte sequence (`hexdigest`). -/
def hexBytes (bs : List Nat) : List Char := bs.flatMap byteHex

/-- UTF-8 encoding of a Python string (`str.encode('utf-8')`). -/
def utf8Bytes (s : String) : List Nat :=
  (s.data.flatMap String.utf8EncodeChar).map UInt8.toNat

/-- Function `calculate_signature`: HMAC-SHA256 of the UTF-8 payload bytes keyed by
the UTF-8 secret bytes, as the lowercase hexdigest behind `sha256=`. -/
def calculate_signature (payload secret : String) : String :=
  "sha256=" ++ ⟨hexBytes (hmacSha256 (utf8Bytes secret) (utf8Bytes payload))⟩

/-! ## The submitter (`submit_application`) and the exit code of `main`

The HTTP POST itself is external I/O; its possible outcomes are modelled
by `HttpOutcome`.  Exceptions raised inside the `try` block are modelled
explicitly with `PyResult`, so that the `except` clauses of the source
are visible as the final `match`. -/

/-- Python truthiness (`if x:`) of a decoded json value.  A float is falsy
exactly when it is zero, i.e. when all its decimal digits are zero
(extreme exponent underflow to 0.0 is not modelled). -/
def truthy : JValue → Bool
  | .null => false
  | .jbool b => b
  | .jint n => n != 0
  | .jfloat _ ip fr _ => ip != 0 || fr.any (fun d => d != 0)
  | .jnan => true
  | .jinf _ => true
  | .jstr s => s != ""
  | .jarr vs => !vs.isEmpty
  | .jobj kvs => !kvs.isEmpty

/-- Lookup in the dict built by the json object decoder: with duplicate
keys the last binding wins, as in a Python dict literal. -/
def dictGet (fields : List (String × JValue)) (k : String) : Option JValue :=
  fields.foldl (fun acc kv => if kv.1 = k then some kv.2 else acc) none

/-- Outcome of the blocking `urllib.request.urlopen` call and of reading
the response: a decoded body on HTTP success, an `HTTPError` with status
code, reason and error body (`bodyUtf8` is the UTF-8 decoding of the raw
error body, or `none` when those bytes are not valid UTF-8), some other
transport exception (`URLError` etc.), or a success body that is not
valid UTF-8. -/
inductive HttpOutcome where
  | success (body : String)
  | httpError (code : Nat) (reason : String) (bodyUtf8 : Option String)
  | transportError (msg : String)
  | undecodableBody

/-- Exceptions that can surface inside the `try` block of
`submit_application`.  All of them are subclasses of Python `Exception`.
The `HTTPError` carries the raw error body, represented here by its UTF-8
decoding or `none` when the bytes are not valid UTF-8. -/
inductive PyExn where
  | httpError (code : Nat) (reason : String) (bodyUtf8 : Option String)
  | urlError (msg : String)
  | valueError
  | keyError
  | attributeError
  | unicodeDecodeError

/-- A Python computation that either returns normally or raises. -/
inductive PyResult (α : Type) where
  | ok (a : α)
  | exn (e : PyExn)

/-- Body of the `try` block of `submit_application`: read and decode the
response, `json.loads` it (raising `ValueError` on malformed bodies),
test `result.get('success')` (raising `AttributeError` when the decoded
value is not a dict), and on a truthy flag return `result['receipt']`
(raising `KeyError` when absent).  A json `null` receipt is Python
`None`, i.e. no receipt. -/
def tryBody (o : HttpOutcome) : PyResult (Option JValue) :=
  match o with
  | .httpError code reason bodyUtf8 => .exn (.httpError code reason bodyUtf8)
  | .transportError msg => .exn (.urlError msg)
  | .undecodableBody => .exn .unicodeDecodeError
  | .success body =>
    match json_loads body with
    | none => .exn .valueError
    | some (.jobj fields) =>
      if truthy ((dictGet fields "success").getD .null) then
        match dictGet fields "receipt" with
        | none => .exn .keyError
        | some .null => .ok none
        | some v => .ok (some v)
      else .ok none
    | some _ => .exn .attributeError

/-- Function `submit_application` as a whole: the `try` body with its two
handlers.  The `except urllib.error.HTTPError` handler prints the status
line and then `e.read().decode('utf-8')` before returning `None`; when
the error body is not valid UTF-8 that decode raises a
`UnicodeDecodeError` inside the handler, which the sibling
`except Exception` clause of the same `try` does not catch, so it
propagates to the caller.  The `except Exception` handler returns `None`
for every other exception. -/
def submit_application (o : HttpOutcome) : PyResult (Option JValue) :=
  match tryBody o with
  | .ok v => .ok v
  | .exn (.httpError _ _ bodyUtf8) =>
    match bodyUtf8 with
    | some _ => .ok none
    | none => .exn .unicodeDecodeError
  | .exn _ => .ok none

/-- Exit code of `main`: `sys.exit(0)` when the returned receipt is truthy
(`if receipt:`), else `sys.exit(1)`; an uncaught exception would also end
the process with status 1. -/
def mainExitCode (o : HttpOutcome) : Nat :=
  match submit_application o with
  | .ok (some v) => if truthy v then 0 else 1
  | .ok none => 1
  | .exn _ => 1

/-! ## Round trip of the string encoder through the reference parser -/

theorem hexVal_hexChar (d : Nat) (h : d < 16) : hexVal? (hexChar d) = some d := by
  have all : ∀ d : Fin 16, hexVal? (hexChar d.val) = some d.val := by decide
  exact all ⟨d, h⟩

theorem psb_step (f : Nat) (c : Char) (l : List Char) :
    parseStringBody (f + 1) (encChar c ++ l)
      = (parseStringBody f l).map (fun p => (c :: p.1, p.2)) := by
  by_cases h1 : c = '\\'
  · subst h1; rfl
  by_cases h2 : c = '\"'
  · subst h2; rfl
  by_cases h3 : c = '\x08'
  · subst h3; rfl
  by_cases h4 : c = '\x0c'
  · subst h4; rfl
  by_cases h5 : c = '\n'
  · subst h5; rfl
  by_cases h6 : c = '\r'
  · subst h6; rfl
  by_cases h7 : c = '\t'
  · subst h7; rfl
  by_cases h8 : c.toNat < 32
  · have e1 : encChar c = '\\' :: 'u' :: hex4 c.toNat := by
      unfold encChar
      rw [if_neg h1, if_neg h2, if_neg h3, if_neg h4, if_neg h5, if_neg h6, if_neg h7, if_pos h8]
    rw [e1]
    simp only [hex4, List.cons_append]
    simp only [parseStringBody]
    norm_num
    rw [hexVal_hexChar _ (Nat.mod_lt _ (by norm_num)),
        hexVal_hexChar _ (Nat.mod_lt _ (by norm_num)),
        hexVal_hexChar _ (Nat.mod_lt _ (by norm_num)),
        hexVal_hexChar _ (Nat.mod_lt _ (by norm_num))]
    have hv : ((c.toNat / 4096 % 16 * 16 + c.toNat / 256 % 16) * 16 + c.toNat / 16 % 16) * 16 +
        c.toNat % 16 = c.toNat := by omega
    simp only [hv]
    rw [if_pos (Or.inl (by omega))]
    rw [Char.ofNat_toNat]
    rw [if_neg (show ¬ ('\\' : Char) = '\"' by decide)]
  · have e1 : encChar c = [c] := by
      unfold encChar
      rw [if_neg h1, if_neg h2, if_neg h3, if_neg h4, if_neg h5, if_neg h6, if_neg h7, if_neg h8]
    rw [e1]
    simp only [List.cons_append, List.nil_append]
    simp only [parseStringBody]
    rw [if_neg h2, if_neg h1, if_neg h8]

theorem psb_encBody (cs : List Char) (l : List Char) :
    ∀ f, cs.length < f → parseStringBody f (cs.flatMap encChar ++ '\"' :: l) = some (cs, l) := by
  induction cs with
  | nil =>
    intro f hf
    obtain ⟨g, rfl⟩ : ∃ g, f = g + 1 := ⟨f - 1, by omega⟩
    rfl
  | cons c cs ih =>
    intro f hf
    obtain ⟨g, rfl⟩ : ∃ g, f = g + 1 := ⟨f - 1, by omega⟩
    simp only [List.flatMap_cons, List.append_assoc]
    rw [psb_step, ih g (by simpa using hf)]
    rfl

theorem encChar_length_pos (c : Char) : 1 ≤ (encChar c).length := by
  unfold encChar
  split_ifs <;> simp [hex4]

theorem flatMap_encChar_length (cs : List Char) : cs.length ≤ (cs.flatMap encChar).length := by
  induction cs with
  | nil => simp
  | cons c cs ih =>
    simp only [List.flatMap_cons, List.length_append, List.length_cons]
    have := encChar_length_pos c
    omega

theorem skipWs_encString (k : String) (X : List Char) :
    skipWs (encString k ++ X) = encString k ++ X := by
  simp [encString, skipWs, List.dropWhile_cons, jWs]

/-- Parsing a value that starts with an encoded string literal yields that
string. -/
theorem parse_value_str (f : Nat) (s : String) (l : List Char) :
    parseJ (f + 1) .value (encString s ++ l) = some (.rVal (.jstr s), l) := by
  have hlen : s.data.length < (s.data.flatMap encChar ++ '\"' :: l).length := by
    have := flatMap_encChar_length s.data
    simp only [List.length_append, List.length_cons]
    omega
  have hshape : encString s ++ l = '\"' :: (s.data.flatMap encChar ++ '\"' :: l) := by
    simp [encString]
  rw [hshape]
  show (match parseStringBody (s.data.flatMap encChar ++ '\"' :: l).length
      (s.data.flatMap encChar ++ '\"' :: l) with
    | some (cs, rest2) => some (PRes.rVal (JValue.jstr ⟨cs⟩), rest2)
    | none => none) = some (.rVal (.jstr s), l)
  rw [psb_encBody s.data l _ hlen]

/-- Parsing the last `"key":"value"` member before the closing brace. -/
theorem parse_members_last (f : Nat) (k v : String) (l : List Char) :
    parseJ (f + 2) .members (encString k ++ ':' :: encString v ++ '\x7d' :: l)
      = some (.rMembers [(k, .jstr v)], l) := by
  have hlen : k.data.length
      < (k.data.flatMap encChar ++ '\"' :: (':' :: (encString v ++ '\x7d' :: l))).length := by
    have := flatMap_encChar_length k.data
    simp only [List.length_append, List.length_cons]
    omega
  have hshape : encString k ++ ':' :: encString v ++ '\x7d' :: l
      = '\"' :: (k.data.flatMap encChar ++ '\"' :: (':' :: (encString v ++ '\x7d' :: l))) := by
    simp [encString]
  rw [hshape]
  show (match parseStringBody
      (k.data.flatMap encChar ++ '\"' :: (':' :: (encString v ++ '\x7d' :: l))).length
      (k.data.flatMap encChar ++ '\"' :: (':' :: (encString v ++ '\x7d' :: l))) with
    | some (kcs, rest2) =>
      (match skipWs rest2 with
       | [] => none
       | c2 :: rest3 =>
         if c2 = ':' then
           match parseJ (f + 1) PMode.value rest3 with
           | some (PRes.rVal v2, rest4) =>
             (match skipWs rest4 with
              | [] => none
              | c3 :: rest5 =>
                if c3 = ',' then
                  match parseJ (f + 1) PMode.members (skipWs rest5) with
                  | some (PRes.rMembers kvs, rest6) =>
                    some (PRes.rMembers ((⟨kcs⟩, v2) :: kvs), rest6)
                  | _ => none
                else if c3 = '\x7d' then some (PRes.rMembers [(⟨kcs⟩, v2)], rest5)
                else none)
           | _ => none
         else none)
    | none => none) = some (PRes.rMembers [(k, .jstr v)], l)
  rw [psb_encBody k.data _ _ hlen]
  show (match parseJ (f + 1) PMode.value (encString v ++ '\x7d' :: l) with
     | some (PRes.rVal v2, rest4) =>
       (match skipWs rest4 with
        | [] => none
        | c3 :: rest5 =>
          if c3 = ',' then
            match parseJ (f + 1) PMode.members (skipWs rest5) with
            | some (PRes.rMembers kvs, rest6) => some (PRes.rMembers ((k, v2) :: kvs), rest6)
            | _ => none
          else if c3 = '\x7d' then some (PRes.rMembers [(k, v2)], rest5)
          else none)
     | _ => none) = some (PRes.rMembers [(k, .jstr v)], l)
  rw [parse_value_str f v ('\x7d' :: l)]
  rfl

/-- Parsing a `"key":"value",` member followed by further members. -/
theorem parse_members_cons (f : Nat) (k v : String) (tail l : List Char)
    (kvs : List (String × JValue))
    (hskip : skipWs tail = tail)
    (h : parseJ (f + 1) .members tail = some (.rMembers kvs, l)) :
    parseJ (f + 2) .members (encString k ++ ':' :: encString v ++ ',' :: tail)
      = some (.rMembers ((k, .jstr v) :: kvs), l) := by
  have hlen : k.data.length
      < (k.data.flatMap encChar ++ '\"' :: (':' :: (encString v ++ ',' :: tail))).length := by
    have := flatMap_encChar_length k.data
    simp only [List.length_append, List.length_cons]
    omega
  have hshape : encString k ++ ':' :: encString v ++ ',' :: tail
      = '\"' :: (k.data.flatMap encChar ++ '\"' :: (':' :: (encString v ++ ',' :: tail))) := by
    simp [encString]
  rw [hshape]
  show (match parseStringBody
      (k.data.flatMap encChar ++ '\"' :: (':' :: (encString v ++ ',' :: tail))).length
      (k.data.flatMap encChar ++ '\"' :: (':' :: (encString v ++ ',' :: tail))) with
    | some (kcs, rest2) =>
      (match skipWs rest2 with
       | [] => none
       | c2 :: rest3 =>
         if c2 = ':' then
           match parseJ (f + 1) PMode.value rest3 with
           | some (PRes.rVal v2, rest4) =>
             (match skipWs rest4 with
              | [] => none
              | c3 :: rest5 =>
                if c3 = ',' then
                  match parseJ (f + 1) PMode.members (skipWs rest5) with
                  | some (PRes.rMembers kvs2, rest6) =>
                    some (PRes.rMembers ((⟨kcs⟩, v2) :: kvs2), rest6)
                  | _ => none
                else if c3 = '\x7d' then some (PRes.rMembers [(⟨kcs⟩, v2)], rest5)
                else none)
           | _ => none
         else none)
    | none => none) = some (PRes.rMembers ((k, .jstr v) :: kvs), l)
  rw [psb_encBody k.data _ _ hlen]
  show (match parseJ (f + 1) PMode.value (encString v ++ ',' :: tail) with
     | some (PRes.rVal v2, rest4) =>
       (match skipWs rest4 with
        | [] => none
        | c3 :: rest5 =>
          if c3 = ',' then
            match parseJ (f + 1) PMode.members (skipWs rest5) with
            | some (PRes.rMembers kvs2, rest6) => some (PRes.rMembers ((k, v2) :: kvs2), rest6)
            | _ => none
          else if c3 = '\x7d' then some (PRes.rMembers [(k, v2)], rest5)
          else none)
     | _ => none) = some (PRes.rMembers ((k, .jstr v) :: kvs), l)
  rw [parse_value_str f v (',' :: tail)]
  show (match parseJ (f + 1) PMode.members (skipWs tail) with
    | some (PRes.rMembers kvs2, rest6) => some (PRes.rMembers ((k, .jstr v) :: kvs2), rest6)
    | _ => none) = some (PRes.rMembers ((k, .jstr v) :: kvs), l)
  rw [hskip, h]

/-- Parsing an object that opens with an encoded string key. -/
theorem parse_value_obj (f : Nat) (k : String) (X : List Char) (kvs : List (String × JValue))
    (l : List Char)
    (h : parseJ (f + 1) .members (encString k ++ X) = some (.rMembers kvs, l)) :
    parseJ (f + 2) .value ('\x7b' :: (encString k ++ X)) = some (.rVal (.jobj kvs), l) := by
  have hshape : encString k ++ X = '\"' :: (k.data.flatMap encChar ++ '\"' :: X) := by
    simp [encString]
  rw [hshape] at h ⊢
  show (match parseJ (f + 1) PMode.members ('\"' :: (k.data.flatMap encChar ++ '\"' :: X)) with
    | some (PRes.rMembers kvs2, rest3) => some (PRes.rVal (JValue.jobj kvs2), rest3)
    | _ => none) = some (.rVal (.jobj kvs), l)
  rw [h]

/-- The member chain of the serialized payload parses back to the six
fields in order. -/
theorem parse_payload_members (nm em rs rp ar : String) (now : DateTimeUTC) (f : Nat) :
    parseJ (f + 7) .members
      (encString "action_run_link" ++ ':' :: encString ar ++ ',' ::
        (encString "email" ++ ':' :: encString em ++ ',' ::
          (encString "name" ++ ':' :: encString nm ++ ',' ::
            (encString "repository_link" ++ ':' :: encString rp ++ ',' ::
              (encString "resume_link" ++ ':' :: encString rs ++ ',' ::
                (encString "timestamp" ++ ':' :: encString ⟨isoMillisUTC now⟩ ++ '\x7d' :: []))))))
      = some (.rMembers [("action_run_link", .jstr ar), ("email", .jstr em), ("name", .jstr nm),
          ("repository_link", .jstr rp), ("resume_link", .jstr rs),
          ("timestamp", .jstr ⟨isoMillisUTC now⟩)], []) := by
  have m6 : parseJ (f + 2) PMode.members
      (encString "timestamp" ++ ':' :: encString ⟨isoMillisUTC now⟩ ++ '\x7d' :: []) =
      some (PRes.rMembers [("timestamp", JValue.jstr ⟨isoMillisUTC now⟩)], []) :=
    parse_members_last f "timestamp" ⟨isoMillisUTC now⟩ []
  have m6b : parseJ ((f + 1) + 1) PMode.members
      (encString "timestamp" ++ ':' :: encString ⟨isoMillisUTC now⟩ ++ '\x7d' :: []) =
      some (PRes.rMembers [("timestamp", JValue.jstr ⟨isoMillisUTC now⟩)], []) := by
    rw [(by omega : (f + 1) + 1 = f + 2)]
    exact m6
  have m5 := parse_members_cons (f + 1) "resume_link" rs
    (encString "timestamp" ++ ':' :: encString ⟨isoMillisUTC now⟩ ++ '\x7d' :: []) []
    [("timestamp", JValue.jstr ⟨isoMillisUTC now⟩)]
    (skipWs_encString "timestamp" (':' :: encString ⟨isoMillisUTC now⟩ ++ '\x7d' :: []))
    m6b
  have m5b : parseJ ((f + 2) + 1) PMode.members
      (encString "resume_link" ++ ':' :: encString rs ++ ',' ::
        (encString "timestamp" ++ ':' :: encString ⟨isoMillisUTC now⟩ ++ '\x7d' :: [])) =
      some (PRes.rMembers (("resume_link", JValue.jstr rs) ::
        [("timestamp", JValue.jstr ⟨isoMillisUTC now⟩)]), []) := by
    rw [(by omega : (f + 2) + 1 = (f + 1) + 2)]
    exact m5
  have m4 := parse_members_cons (f + 2) "repository_link" rp
    (encString "resume_link" ++ ':' :: encString rs ++ ',' ::
      (encString "timestamp" ++ ':' :: encString ⟨isoMillisUTC now⟩ ++ '\x7d' :: [])) []
    (("resume_link", JValue.jstr rs) :: [("timestamp", JValue.jstr ⟨isoMillisUTC now⟩)])
    (skipWs_encString "resume_link" (':' :: encString rs ++ ',' ::
      (encString "timestamp" ++ ':' :: encString ⟨isoMillisUTC now⟩ ++ '\x7d' :: [])))
    m5b
  have m4b : parseJ ((f + 3) + 1) PMode.members
      (encString "repository_link" ++ ':' :: encString rp ++ ',' ::
        (encString "resume_link" ++ ':' :: encString rs ++ ',' ::
          (encString "timestamp" ++ ':' :: encString ⟨isoMillisUTC now⟩ ++ '\x7d' :: []))) =
      some (PRes.rMembers (("repository_link", JValue.jstr rp) ::
        ("resume_link", JValue.jstr rs) :: [("timestamp", JValue.jstr ⟨isoMillisUTC now⟩)]), []) := by
    rw [(by omega : (f + 3) + 1 = (f + 2) + 2)]
    exact m4
  have m3 := parse_members_cons (f + 3) "name" nm
    (encString "repository_link" ++ ':' :: encString rp ++ ',' ::
      (encString "resume_link" ++ ':' :: encString rs ++ ',' ::
        (encString "timestamp" ++ ':' :: encString ⟨isoMillisUTC now⟩ ++ '\x7d' :: []))) []
    (("repository_link", JValue.jstr rp) :: ("resume_link", JValue.jstr rs) ::
      [("timestamp", JValue.jstr ⟨isoMillisUTC now⟩)])
    (skipWs_encString "repository_link" (':' :: encString rp ++ ',' ::
      (encString "resume_link" ++ ':' :: encString rs ++ ',' ::
        (encString "timestamp" ++ ':' :: encString ⟨isoMillisUTC now⟩ ++ '\x7d' :: []))))
    m4b
  have m3b : parseJ ((f + 4) + 1) PMode.members
      (encString "name" ++ ':' :: encString nm ++ ',' ::
        (encString "repository_link" ++ ':' :: encString rp ++ ',' ::
          (encString "resume_link" ++ ':' :: encString rs ++ ',' ::
            (encString "timestamp" ++ ':' :: encString ⟨isoMillisUTC now⟩ ++ '\x7d' :: [])))) =
      some (PRes.rMembers (("name", JValue.jstr nm) :: ("repository_link", JValue.jstr rp) ::
        ("resume_link", JValue.jstr rs) :: [("timestamp", JValue.jstr ⟨isoMillisUTC now⟩)]), []) := by
    rw [(by omega : (f + 4) + 1 = (f + 3) + 2)]
    exact m3
  have m2 := parse_members_cons (f + 4) "email" em
    (encString "name" ++ ':' :: encString nm ++ ',' ::
      (encString "repository_link" ++ ':' :: encString rp ++ ',' ::
        (encString "resume_link" ++ ':' :: encString rs ++ ',' ::
          (encString "timestamp" ++ ':' :: encString ⟨isoMillisUTC now⟩ ++ '\x7d' :: [])))) []
    (("name", JValue.jstr nm) :: ("repository_link", JValue.jstr rp) ::
      ("resume_link", JValue.jstr rs) :: [("timestamp", JValue.jstr ⟨isoMillisUTC now⟩)])
    (skipWs_encString "name" (':' :: encString nm ++ ',' ::
      (encString "repository_link" ++ ':' :: encString rp ++ ',' ::
        (encString "resume_link" ++ ':' :: encString rs ++ ',' ::
          (encString "timestamp" ++ ':' :: encString ⟨isoMillisUTC now⟩ ++ '\x7d' :: [])))))
    m3b
  have m2b : parseJ ((f + 5) + 1) PMode.members
      (encString "email" ++ ':' :: encString em ++ ',' ::
        (encString "name" ++ ':' :: encString nm ++ ',' ::
          (encString "repository_link" ++ ':' :: encString rp ++ ',' ::
            (encString "resume_link" ++ ':' :: encString rs ++ ',' ::
              (encString "timestamp" ++ ':' :: encString ⟨isoMillisUTC now⟩ ++ '\x7d' :: []))))) =
      some (PRes.rMembers (("email", JValue.jstr em) :: ("name", JValue.jstr nm) ::
        ("repository_link", JValue.jstr rp) :: ("resume_link", JValue.jstr rs) ::
        [("timestamp", JValue.jstr ⟨isoMillisUTC now⟩)]), []) := by
    rw [(by omega : (f + 5) + 1 = (f + 4) + 2)]
    exact m2
  have m1 := parse_members_cons (f + 5) "action_run_link" ar
    (encString "email" ++ ':' :: encString em ++ ',' ::
      (encString "name" ++ ':' :: encString nm ++ ',' ::
        (encString "repository_link" ++ ':' :: encString rp ++ ',' ::
          (encString "resume_link" ++ ':' :: encString rs ++ ',' ::
            (encString "timestamp" ++ ':' :: encString ⟨isoMillisUTC now⟩ ++ '\x7d' :: []))))) []
    (("email", JValue.jstr em) :: ("name", JValue.jstr nm) ::
      ("repository_link", JValue.jstr rp) :: ("resume_link", JValue.jstr rs) ::
      [("timestamp", JValue.jstr ⟨isoMillisUTC now⟩)])
    (skipWs_encString "email" (':' :: encString em ++ ',' ::
      (encString "name" ++ ':' :: encString nm ++ ',' ::
        (encString "repository_link" ++ ':' :: encString rp ++ ',' ::
          (encString "resume_link" ++ ':' :: encString rs ++ ',' ::
            (encString "timestamp" ++ ':' :: encString ⟨isoMillisUTC now⟩ ++ '\x7d' :: []))))))
    m2b
  rw [(by omega : f + 7 = (f + 5) + 2)]
  exact m1

/-- Explicit shape of the serialized payload: brace, the six encoded
`"key":"value"` members joined by commas, closing brace. -/
theorem create_payload_data (nm em rs rp ar : String) (now : DateTimeUTC) :
    (create_payload nm em rs rp ar now).data
      = '\x7b' :: (encString "action_run_link" ++ ':' :: encString ar ++ ',' ::
          (encString "email" ++ ':' :: encString em ++ ',' ::
            (encString "name" ++ ':' :: encString nm ++ ',' ::
              (encString "repository_link" ++ ':' :: encString rp ++ ',' ::
                (encString "resume_link" ++ ':' :: encString rs ++ ',' ::
                  (encString "timestamp" ++ ':' :: encString ⟨isoMillisUTC now⟩
                    ++ '\x7d' :: [])))))) := by
  show dumpsFlat (payloadFields nm em rs rp ar now) = _
  simp [dumpsFlat, dumpsItems, payloadFields, List.append_assoc]

/-- The serialized payload parses as a value to the six-field object with
nothing left over. -/
theorem parse_create_payload (nm em rs rp ar : String) (now : DateTimeUTC) (f : Nat) :
    parseJ (f + 8) .value (create_payload nm em rs rp ar now).data
      = some (.rVal (.jobj [("action_run_link", .jstr ar), ("email", .jstr em),
          ("name", .jstr nm), ("repository_link", .jstr rp), ("resume_link", .jstr rs),
          ("timestamp", .jstr ⟨isoMillisUTC now⟩)]), []) := by
  rw [create_payload_data nm em rs rp ar now]
  have mm := parse_payload_members nm em rs rp ar now f
  have mmb : parseJ ((f + 6) + 1) PMode.members
      (encString "action_run_link" ++ ':' :: encString ar ++ ',' ::
        (encString "email" ++ ':' :: encString em ++ ',' ::
          (encString "name" ++ ':' :: encString nm ++ ',' ::
            (encString "repository_link" ++ ':' :: encString rp ++ ',' ::
              (encString "resume_link" ++ ':' :: encString rs ++ ',' ::
                (encString "timestamp" ++ ':' :: encString ⟨isoMillisUTC now⟩ ++ '\x7d' :: []))))))
      = some (PRes.rMembers [("action_run_link", JValue.jstr ar), ("email", JValue.jstr em),
          ("name", JValue.jstr nm), ("repository_link", JValue.jstr rp),
          ("resume_link", JValue.jstr rs), ("timestamp", JValue.jstr ⟨isoMillisUTC now⟩)], []) := by
    rw [(by omega : (f + 6) + 1 = f + 7)]
    exact mm
  rw [(by omega : f + 8 = (f + 6) + 2)]
  exact parse_value_obj (f + 6) "action_run_link"
    (':' :: encString ar ++ ',' ::
      (encString "email" ++ ':' :: encString em ++ ',' ::
        (encString "name" ++ ':' :: encString nm ++ ',' ::
          (encString "repository_link" ++ ':' :: encString rp ++ ',' ::
            (encString "resume_link" ++ ':' :: encString rs ++ ',' ::
              (encString "timestamp" ++ ':' :: encString ⟨isoMillisUTC now⟩ ++ '\x7d' :: []))))))
    [("action_run_link", JValue.jstr ar), ("email", JValue.jstr em), ("name", JValue.jstr nm),
      ("repository_link", JValue.jstr rp), ("resume_link", JValue.jstr rs),
      ("timestamp", JValue.jstr ⟨isoMillisUTC now⟩)]
    [] mmb

/-- Reparsing the serialized payload with `json.loads` recovers all field
values. -/
theorem json_loads_create_payload (nm em rs rp ar : String) (now : DateTimeUTC) :
    json_loads (create_payload nm em rs rp ar now)
      = some (.jobj [("action_run_link", .jstr ar), ("email", .jstr em), ("name", .jstr nm),
          ("repository_link", .jstr rp), ("resume_link", .jstr rs),
          ("timestamp", .jstr ⟨isoMillisUTC now⟩)]) := by
  unfold json_loads
  rw [parse_create_payload nm em rs rp ar now (2 * (create_payload nm em rs rp ar now).length)]
  rfl

/-! ## Scan of the serialized payload: structural characters only -/

theorem outside_true_cons (c : Char) (l : List Char) (hb : c ≠ '\\') (hq : c ≠ '\"') :
    outsideChars .inside (c :: l) = outsideChars .inside l := by
  show (if c = '\\' then outsideChars .esc l
    else if c = '\"' then outsideChars .outside l
    else outsideChars .inside l) = outsideChars .inside l
  rw [if_neg hb, if_neg hq]

theorem outside_false_cons (c : Char) (l : List Char) (hq : c ≠ '\"') :
    outsideChars .outside (c :: l) = c :: outsideChars .outside l := by
  show (if c = '\"' then outsideChars .inside l else c :: outsideChars .outside l)
      = c :: outsideChars .outside l
  rw [if_neg hq]

theorem outside_encChar (c : Char) (l : List Char) :
    outsideChars .inside (encChar c ++ l) = outsideChars .inside l := by
  by_cases h1 : c = '\\'
  · subst h1; rfl
  by_cases h2 : c = '\"'
  · subst h2; rfl
  by_cases h3 : c = '\x08'
  · subst h3; rfl
  by_cases h4 : c = '\x0c'
  · subst h4; rfl
  by_cases h5 : c = '\n'
  · subst h5; rfl
  by_cases h6 : c = '\r'
  · subst h6; rfl
  by_cases h7 : c = '\t'
  · subst h7; rfl
  by_cases h8 : c.toNat < 32
  · have e1 : encChar c = '\\' :: 'u' :: hex4 c.toNat := by
      unfold encChar
      rw [if_neg h1, if_neg h2, if_neg h3, if_neg h4, if_neg h5, if_neg h6, if_neg h7, if_pos h8]
    rw [e1]
    have hne : ∀ d : Fin 16, hexChar d.val ≠ '\\' ∧ hexChar d.val ≠ '\"' := by decide
    show outsideChars .inside (hexChar (c.toNat / 4096 % 16) :: hexChar (c.toNat / 256 % 16)
        :: hexChar (c.toNat / 16 % 16) :: hexChar (c.toNat % 16) :: l)
      = outsideChars .inside l
    rw [outside_true_cons _ _ (hne ⟨_, Nat.mod_lt _ (by norm_num)⟩).1
          (hne ⟨_, Nat.mod_lt _ (by norm_num)⟩).2,
        outside_true_cons _ _ (hne ⟨_, Nat.mod_lt _ (by norm_num)⟩).1
          (hne ⟨_, Nat.mod_lt _ (by norm_num)⟩).2,
        outside_true_cons _ _ (hne ⟨_, Nat.mod_lt _ (by norm_num)⟩).1
          (hne ⟨_, Nat.mod_lt _ (by norm_num)⟩).2,
        outside_true_cons _ _ (hne ⟨_, Nat.mod_lt _ (by norm_num)⟩).1
          (hne ⟨_, Nat.mod_lt _ (by norm_num)⟩).2]
  · have e1 : encChar c = [c] := by
      unfold encChar
      rw [if_neg h1, if_neg h2, if_neg h3, if_neg h4, if_neg h5, if_neg h6, if_neg h7, if_neg h8]
    rw [e1]
    show outsideChars .inside (c :: l) = outsideChars .inside l
    exact outside_true_cons c l h1 h2

theorem outside_encBody (cs : List Char) (l : List Char) :
    outsideChars .inside (cs.flatMap encChar ++ l) = outsideChars .inside l := by
  induction cs with
  | nil => rfl
  | cons c cs ih =>
    simp only [List.flatMap_cons, List.append_assoc]
    rw [outside_encChar, ih]

theorem outside_encString (s : String) (l : List Char) :
    outsideChars .outside (encString s ++ l) = outsideChars .outside l := by
  have hshape : encString s ++ l = '\"' :: (s.data.flatMap encChar ++ '\"' :: l) := by
    simp [encString]
  rw [hshape]
  show outsideChars .inside (s.data.flatMap encChar ++ '\"' :: l) = outsideChars .outside l
  rw [outside_encBody]
  rfl

/-- Outside its string literals the serialized payload consists exactly of
the two braces, the six key separators and the five item separators, in
order: no whitespace anywhere between tokens. -/
theorem outside_create_payload (nm em rs rp ar : String) (now : DateTimeUTC) :
    outsideChars .outside (create_payload nm em rs rp ar now).data
      = ['\x7b', ':', ',', ':', ',', ':', ',', ':', ',', ':', ',', ':', '\x7d'] := by
  rw [create_payload_data nm em rs rp ar now]
  simp only [List.append_assoc, List.cons_append]
  rw [outside_false_cons '\x7b' _ (by decide),
      outside_encString, outside_false_cons ':' _ (by decide),
      outside_encString, outside_false_cons ',' _ (by decide),
      outside_encString, outside_false_cons ':' _ (by decide),
      outside_encString, outside_false_cons ',' _ (by decide),
      outside_encString, outside_false_cons ':' _ (by decide),
      outside_encString, outside_false_cons ',' _ (by decide),
      outside_encString, outside_false_cons ':' _ (by decide),
      outside_encString, outside_false_cons ',' _ (by decide),
      outside_encString, outside_false_cons ':' _ (by decide),
      outside_encString, outside_false_cons ',' _ (by decide),
      outside_encString, outside_false_cons ':' _ (by decide),
      outside_encString, outside_false_cons '\x7d' _ (by decide)]
  rfl

/-! ## Timestamp formatting lemmas -/

theorem toDigitsCore_length (fuel : Nat) :
    ∀ (n k : Nat) (ds : List Char), 0 < k → n < 10 ^ k →
      (Nat.toDigitsCore 10 fuel n ds).length ≤ ds.length + k := by
  induction fuel with
  | zero =>
    intro n k ds hk hn
    simp only [Nat.toDigitsCore]
    omega
  | succ fuel ih =>
    intro n k ds hk hn
    simp only [Nat.toDigitsCore]
    split
    · simp
      omega
    · rename_i hne
      obtain ⟨k', rfl⟩ : ∃ k', k = k' + 1 := ⟨k - 1, by omega⟩
      have h10 : 10 ≤ n := by
        by_contra hlt
        exact hne (Nat.div_eq_of_lt (by omega))
      have hk' : 0 < k' := by
        by_contra hk0
        have hz : k' = 0 := by omega
        subst hz
        simp at hn
        omega
      have hn' : n / 10 < 10 ^ k' := by
        rw [Nat.div_lt_iff_lt_mul (by norm_num)]
        calc n < 10 ^ (k' + 1) := hn
        _ = 10 ^ k' * 10 := by ring
      have hrec := ih (n / 10) k' (Nat.digitChar (n % 10) :: ds) hk' hn'
      simp at hrec ⊢
      omega

theorem toDigitsCore_digits (fuel : Nat) :
    ∀ (n : Nat) (ds : List Char), (∀ c ∈ ds, c.isDigit = true) →
      ∀ c ∈ Nat.toDigitsCore 10 fuel n ds, c.isDigit = true := by
  induction fuel with
  | zero =>
    intro n ds hds c hc
    simp only [Nat.toDigitsCore] at hc
    exact hds c hc
  | succ fuel ih =>
    intro n ds hds c hc
    have hdigit : (Nat.digitChar (n % 10)).isDigit = true := by
      have hall : ∀ m : Fin 10, (Nat.digitChar m.val).isDigit = true := by decide
      exact hall ⟨n % 10, Nat.mod_lt _ (by norm_num)⟩
    have hcons : ∀ x ∈ Nat.digitChar (n % 10) :: ds, x.isDigit = true := by
      intro x hx
      rcases List.mem_cons.mp hx with rfl | hx
      · exact hdigit
      · exact hds x hx
    simp only [Nat.toDigitsCore] at hc
    split at hc
    · exact hcons c hc
    · exact ih (n / 10) _ hcons c hc

theorem padDec_length (w n : Nat) (hw : 0 < w) (hn : n < 10 ^ w) : (padDec w n).length = w := by
  have h1 : (Nat.toDigits 10 n).length ≤ w := by
    have := toDigitsCore_length (n + 1) n w [] hw hn
    simpa [Nat.toDigits] using this
  simp only [padDec, List.length_append, List.length_replicate]
  omega

theorem padDec_digits (w n : Nat) : ∀ c ∈ padDec w n, c.isDigit = true := by
  intro c hc
  simp only [padDec, List.mem_append, List.mem_replicate] at hc
  rcases hc with ⟨_, rfl⟩ | hc
  · decide
  · exact toDigitsCore_digits (n + 1) n [] (by simp) c hc

theorem isoStem_chars (t : DateTimeUTC) :
    ∀ c ∈ isoStem t, c.isDigit = true ∨ c = '-' ∨ c = 'T' ∨ c = ':' ∨ c = '.' := by
  intro c hc
  simp only [isoStem, List.mem_append, List.mem_cons] at hc
  rcases hc with h | h
  rotate_left
  · rcases h with rfl | h
    · right; right; right; right; rfl
    · exact Or.inl (padDec_digits 3 t.millisecond c h)
  rcases h with h | h
  rotate_left
  · rcases h with rfl | h
    · right; right; right; left; rfl
    · exact Or.inl (padDec_digits 2 t.second c h)
  rcases h with h | h
  rotate_left
  · rcases h with rfl | h
    · right; right; right; left; rfl
    · exact Or.inl (padDec_digits 2 t.minute c h)
  rcases h with h | h
  rotate_left
  · rcases h with rfl | h
    · right; right; left; rfl
    · exact Or.inl (padDec_digits 2 t.hour c h)
  rcases h with h | h
  rotate_left
  · rcases h with rfl | h
    · right; left; rfl
    · exact Or.inl (padDec_digits 2 t.day c h)
  rcases h with h | h
  · exact Or.inl (padDec_digits 4 t.year c h)
  · rcases h with rfl | h
    · right; left; rfl
    · exact Or.inl (padDec_digits 2 t.month c h)

theorem isoStem_no_plus (t : DateTimeUTC) : ∀ c ∈ isoStem t, c ≠ '+' := by
  intro c hc heq
  subst heq
  rcases isoStem_chars t '+' hc with h | h | h | h | h <;> simp at h

theorem replaceAux_empty (pat rep : List Char) (g : Nat) : replaceAux pat rep g [] = [] := by
  cases g <;> rfl

theorem replaceAux_no_plus (a : List Char) :
    ∀ fuel, a.length + 6 ≤ fuel → (∀ c ∈ a, c ≠ '+') →
      replaceAux ['+', '0', '0', ':', '0', '0'] ['Z'] fuel
        (a ++ ['+', '0', '0', ':', '0', '0']) = a ++ ['Z'] := by
  induction a with
  | nil =>
    intro fuel hf _
    obtain ⟨g, rfl⟩ : ∃ g, fuel = g + 1 := ⟨fuel - 1, by omega⟩
    have h1 : replaceAux ['+', '0', '0', ':', '0', '0'] ['Z'] (g + 1)
        ([] ++ ['+', '0', '0', ':', '0', '0'])
        = ['Z'] ++ replaceAux ['+', '0', '0', ':', '0', '0'] ['Z'] g [] := rfl
    rw [h1, replaceAux_empty]
    rfl
  | cons c a ih =>
    intro fuel hf hplus
    obtain ⟨g, rfl⟩ : ∃ g, fuel = g + 1 := ⟨fuel - 1, by omega⟩
    have hc : c ≠ '+' := hplus c (by simp)
    simp only [List.cons_append]
    show (if List.isPrefixOf ['+', '0', '0', ':', '0', '0']
        (c :: (a ++ ['+', '0', '0', ':', '0', '0'])) then
      ['Z'] ++ replaceAux ['+', '0', '0', ':', '0', '0'] ['Z'] g
        ((c :: (a ++ ['+', '0', '0', ':', '0', '0'])).drop
          (['+', '0', '0', ':', '0', '0'] : List Char).length)
    else c :: replaceAux ['+', '0', '0', ':', '0', '0'] ['Z'] g (a ++ ['+', '0', '0', ':', '0', '0']))
      = c :: (a ++ ['Z'])
    have hbeq : ('+' == c) = false := by
      rw [beq_eq_false_iff_ne]
      exact fun h => hc h.symm
    have hpre : List.isPrefixOf ['+', '0', '0', ':', '0', '0']
        (c :: (a ++ ['+', '0', '0', ':', '0', '0'])) = false := by
      simp [List.isPrefixOf, hbeq]
    rw [if_neg (by simp [hpre])]
    rw [ih g (by simpa using hf) (fun x hx => hplus x (by simp [hx]))]

theorem isoMillisUTC_eq (t : DateTimeUTC) : isoMillisUTC t = isoStem t ++ ['Z'] := by
  show replaceAux ['+', '0', '0', ':', '0', '0'] ['Z'] (isoRaw t).length (isoRaw t)
      = isoStem t ++ ['Z']
  have hlen : (isoRaw t).length = (isoStem t).length + 6 := by
    simp [isoRaw]
  rw [hlen]
  show replaceAux ['+', '0', '0', ':', '0', '0'] ['Z'] ((isoStem t).length + 6)
      (isoStem t ++ ['+', '0', '0', ':', '0', '0']) = isoStem t ++ ['Z']
  exact replaceAux_no_plus (isoStem t) _ (by omega) (isoStem_no_plus t)

theorem isoMillisUTC_length (t : DateTimeUTC) (h1 : t.year < 10000) (h2 : t.month < 100)
    (h3 : t.day < 100) (h4 : t.hour < 100) (h5 : t.minute < 100) (h6 : t.second < 100)
    (h7 : t.millisecond < 1000) : (isoMillisUTC t).length = 24 := by
  rw [isoMillisUTC_eq]
  simp only [isoStem, List.length_append, List.length_cons, List.length_singleton]
  rw [padDec_length 4 t.year (by norm_num) (by norm_num; omega),
      padDec_length 2 t.month (by norm_num) (by norm_num; omega),
      padDec_length 2 t.day (by norm_num) (by norm_num; omega),
      padDec_length 2 t.hour (by norm_num) (by norm_num; omega),
      padDec_length 2 t.minute (by norm_num) (by norm_num; omega),
      padDec_length 2 t.second (by norm_num) (by norm_num; omega),
      padDec_length 3 t.millisecond (by norm_num) (by norm_num; omega)]
  simp

theorem isoMillisUTC_no_offset (t : DateTimeUTC) :
    ∀ pre post : List Char,
      isoMillisUTC t ≠ pre ++ ['+', '0', '0', ':', '0', '0'] ++ post := by
  intro pre post heq
  have hmem : '+' ∈ isoMillisUTC t := by
    rw [heq]
    simp
  rw [isoMillisUTC_eq] at hmem
  rcases List.mem_append.mp hmem with h | h
  · exact isoStem_no_plus t '+' h rfl
  · simp at h

/-! ## Signature shape lemmas and known-answer vectors -/

/-- Lowercase hexadecimal digit test. -/
def isLowerHex (c : Char) : Bool := ('0' ≤ c && c ≤ '9') || ('a' ≤ c && c ≤ 'f')

theorem be32_mem (w : Nat) : ∀ b ∈ be32 w, b < 256 := by
  intro b hb
  simp only [be32, List.mem_cons, List.not_mem_nil, or_false] at hb
  rcases hb with rfl | rfl | rfl | rfl <;> exact Nat.mod_lt _ (by norm_num)

theorem sha256_length (msg : List Nat) : (sha256 msg).length = 32 := by
  simp [sha256, be32]

theorem sha256_bytes (msg : List Nat) : ∀ b ∈ sha256 msg, b < 256 := by
  intro b hb
  simp only [sha256, List.mem_append] at hb
  rcases hb with (((((((h | h) | h) | h) | h) | h) | h) | h) <;> exact be32_mem _ b h

theorem hmacSha256_length (key msg : List Nat) : (hmacSha256 key msg).length = 32 := by
  simp only [hmacSha256]
  exact sha256_length _

theorem hmacSha256_bytes (key msg : List Nat) : ∀ b ∈ hmacSha256 key msg, b < 256 := by
  simp only [hmacSha256]
  exact sha256_bytes _

theorem hexBytes_length (bs : List Nat) : (hexBytes bs).length = 2 * bs.length := by
  induction bs with
  | nil => rfl
  | cons b bs ih =>
    simp only [hexBytes, List.flatMap_cons, List.length_append, List.length_cons] at ih ⊢
    simp only [byteHex, List.length_cons, List.length_nil]
    omega

theorem hexChar_lower (d : Nat) (h : d < 16) : isLowerHex (hexChar d) = true := by
  have hall : ∀ d : Fin 16, isLowerHex (hexChar d.val) = true := by decide
  exact hall ⟨d, h⟩

theorem hexBytes_chars (bs : List Nat) (h : ∀ b ∈ bs, b < 256) :
    ∀ c ∈ hexBytes bs, isLowerHex c = true := by
  induction bs with
  | nil => simp [hexBytes]
  | cons b bs ih =>
    intro c hc
    simp only [hexBytes, List.flatMap_cons, List.mem_append] at hc
    rcases hc with hc | hc
    · simp only [byteHex, List.mem_cons, List.not_mem_nil, or_false] at hc
      rcases hc with rfl | rfl
      · exact hexChar_lower _ (by have := h b (by simp); omega)
      · exact hexChar_lower _ (Nat.mod_lt _ (by norm_num))
    · exact ih (fun x hx => h x (by simp [hx])) c hc

/-- FIPS 180-4 known-answer test: SHA-256 of "abc". -/
theorem sha256_fips_abc :
    String.mk (hexBytes (sha256 (utf8Bytes "abc")))
      = "ba7816bf8f01cfea414140de5dae2223b00361a396177a9cb410ff61f20015ad" := by decide

/-- FIPS 180-4 known-answer test: the two-block message, exercising padding
across block boundaries. -/
theorem sha256_fips_two_block :
    String.mk (hexBytes (sha256 (utf8Bytes "abcdbcdecdefdefgefghfghighijhijkijkljklmklmnlmnomnopnopq")))
      = "248d6a61d20638b8e5c026930c3e6039a33ce45964ff2167f6ecedd419db06c1" := by decide

/-- RFC 4231 test case 2: HMAC-SHA256 with key "Jefe". -/
theorem hmac_rfc4231_case2 :
    String.mk (hexBytes (hmacSha256 (utf8Bytes "Jefe")
        (utf8Bytes "what do ya want for nothing?")))
      = "5bdcc146bf60754e6a042426089575c75a003f089d2739839dec58b964ec3843" := by decide

/-! ## Submitter lemmas -/

theorem tryBody_keyError (body : String) (fields : List (String × JValue))
    (hparse : json_loads body = some (.jobj fields))
    (hsucc : truthy ((dictGet fields "success").getD .null) = true)
    (hrec : dictGet fields "receipt" = none) :
    tryBody (.success body) = .exn .keyError := by
  show (match json_loads body with
    | none => PyResult.exn PyExn.valueError
    | some (JValue.jobj fields2) =>
      if truthy ((dictGet fields2 "success").getD JValue.null) = true then
        match dictGet fields2 "receipt" with
        | none => PyResult.exn PyExn.keyError
        | some JValue.null => PyResult.ok none
        | some v => PyResult.ok (some v)
      else PyResult.ok none
    | some _ => PyResult.exn PyExn.attributeError) = PyResult.exn PyExn.keyError
  rw [hparse]
  show (if truthy ((dictGet fields "success").getD JValue.null) = true then
      (match dictGet fields "receipt" with
       | none => PyResult.exn PyExn.keyError
       | some JValue.null => PyResult.ok none
       | some v => PyResult.ok (some v))
    else PyResult.ok none) = PyResult.exn PyExn.keyError
  rw [if_pos hsucc, hrec]

theorem tryBody_valueError (body : String) (hparse : json_loads body = none) :
    tryBody (.success body) = .exn .valueError := by
  show (match json_loads body with
    | none => PyResult.exn PyExn.valueError
    | some (JValue.jobj fields2) =>
      if truthy ((dictGet fields2 "success").getD JValue.null) = true then
        match dictGet fields2 "receipt" with
        | none => PyResult.exn PyExn.keyError
        | some JValue.null => PyResult.ok none
        | some v => PyResult.ok (some v)
      else PyResult.ok none
    | some _ => PyResult.exn PyExn.attributeError) = PyResult.exn PyExn.valueError
  rw [hparse]

theorem tryBody_flag_falsy (body : String) (fields : List (String × JValue))
    (hparse : json_loads body = some (.jobj fields))
    (hfalsy : truthy ((dictGet fields "success").getD .null) = false) :
    tryBody (.success body) = .ok none := by
  show (match json_loads body with
    | none => PyResult.exn PyExn.valueError
    | some (JValue.jobj fields2) =>
      if truthy ((dictGet fields2 "success").getD JValue.null) = true then
        match dictGet fields2 "receipt" with
        | none => PyResult.exn PyExn.keyError
        | some JValue.null => PyResult.ok none
        | some v => PyResult.ok (some v)
      else PyResult.ok none
    | some _ => PyResult.exn PyExn.attributeError) = PyResult.ok none
  rw [hparse]
  show (if truthy ((dictGet fields "success").getD JValue.null) = true then
      (match dictGet fields "receipt" with
       | none => PyResult.exn PyExn.keyError
       | some JValue.null => PyResult.ok none
       | some v => PyResult.ok (some v))
    else PyResult.ok none) = PyResult.ok none
  rw [if_neg (by simp [hfalsy])]

theorem tryBody_flag_false (body : String) (fields : List (String × JValue))
    (hparse : json_loads body = some (.jobj fields))
    (hfalse : dictGet fields "success" = some (.jbool false)) :
    tryBody (.success body) = .ok none :=
  tryBody_flag_falsy body fields hparse (by rw [hfalse]; rfl)

theorem tryBody_receipt_some (body : String) (fields : List (String × JValue)) (rv : JValue)
    (hparse : json_loads body = some (.jobj fields))
    (hsucc : truthy ((dictGet fields "success").getD .null) = true)
    (hrec : dictGet fields "receipt" = some rv) :
    ∃ w, tryBody (.success body) = .ok w := by
  show ∃ w, (match json_loads body with
    | none => PyResult.exn PyExn.valueError
    | some (JValue.jobj fields2) =>
      if truthy ((dictGet fields2 "success").getD JValue.null) = true then
        match dictGet fields2 "receipt" with
        | none => PyResult.exn PyExn.keyError
        | some JValue.null => PyResult.ok none
        | some v => PyResult.ok (some v)
      else PyResult.ok none
    | some _ => PyResult.exn PyExn.attributeError) = PyResult.ok w
  rw [hparse]
  show ∃ w, (if truthy ((dictGet fields "success").getD JValue.null) = true then
      (match dictGet fields "receipt" with
       | none => PyResult.exn PyExn.keyError
       | some JValue.null => PyResult.ok none
       | some v => PyResult.ok (some v))
    else PyResult.ok none) = PyResult.ok w
  rw [if_pos hsucc, hrec]
  cases rv <;> exact ⟨_, rfl⟩

theorem tryBody_not_obj (body : String) (v : JValue) (hparse : json_loads body = some v)
    (hv : ∀ fields, v ≠ .jobj fields) : tryBody (.success body) = .exn .attributeError := by
  show (match json_loads body with
    | none => PyResult.exn PyExn.valueError
    | some (JValue.jobj fields2) =>
      if truthy ((dictGet fields2 "success").getD JValue.null) = true then
        match dictGet fields2 "receipt" with
        | none => PyResult.exn PyExn.keyError
        | some JValue.null => PyResult.ok none
        | some v => PyResult.ok (some v)
      else PyResult.ok none
    | some _ => PyResult.exn PyExn.attributeError) = PyResult.exn PyExn.attributeError
  rw [hparse]
  cases v <;> first | rfl | exact absurd rfl (hv _)

theorem submit_of_tryBody_exn (o : HttpOutcome) (e : PyExn) (h : tryBody o = .exn e)
    (he : ∀ code reason bodyUtf8, e ≠ .httpError code reason bodyUtf8) :
    submit_application o = .ok none := by
  unfold submit_application
  rw [h]
  cases e with
  | httpError code reason bodyUtf8 => exact absurd rfl (he code reason bodyUtf8)
  | urlError msg => rfl
  | valueError => rfl
  | keyError => rfl
  | attributeError => rfl
  | unicodeDecodeError => rfl

theorem submit_of_tryBody_ok (o : HttpOutcome) (v : Option JValue) (h : tryBody o = .ok v) :
    submit_application o = .ok v := by
  unfold submit_application
  rw [h]

theorem mainExitCode_of_none (o : HttpOutcome) (h : submit_application o = .ok none) :
    mainExitCode o = 1 := by
  unfold mainExitCode
  rw [h]

/-- On an HTTP success outcome `submit_application` always returns
normally: every exception the `try` body can raise there is caught. -/
theorem submit_success_returns (body : String) :
    ∃ v, submit_application (.success body) = .ok v := by
  cases hp : json_loads body with
  | none =>
    exact ⟨none, submit_of_tryBody_exn _ _ (tryBody_valueError body hp)
      (fun _ _ _ h => PyExn.noConfusion h)⟩
  | some v =>
    by_cases hobj : ∃ fields, v = .jobj fields
    · obtain ⟨fields, rfl⟩ := hobj
      by_cases hs : truthy ((dictGet fields "success").getD .null) = true
      · cases hr : dictGet fields "receipt" with
        | none =>
          exact ⟨none, submit_of_tryBody_exn _ _ (tryBody_keyError body fields hp hs hr)
            (fun _ _ _ h => PyExn.noConfusion h)⟩
        | some rv =>
          obtain ⟨w, hw⟩ := tryBody_receipt_some body fields rv hp hs hr
          exact ⟨w, submit_of_tryBody_ok _ _ hw⟩
      · exact ⟨none, submit_of_tryBody_ok _ _
          (tryBody_flag_falsy body fields hp (by simpa using hs))⟩
    · have hv : ∀ fields, v ≠ .jobj fields := fun fields h => hobj ⟨fields, h⟩
      exact ⟨none, submit_of_tryBody_exn _ _ (tryBody_not_obj body v hp hv)
        (fun _ _ _ h => PyExn.noConfusion h)⟩

/-! ## The specification claims -/

/-- C1: for every set of string inputs (and clock reading), the serialized
payload produced by `create_payload` contains exactly the six keys
`action_run_link`, `email`, `name`, `repository_link`, `resume_link`,
`timestamp`, in that strictly increasing (alphabetical) order, and the
characters outside its string literals are exactly the braces, the six
`:` key separators and the five `,` item separators — no whitespace
between tokens. -/
theorem c1_payload_keys_order_no_whitespace (nm em rs rp ar : String) (now : DateTimeUTC) :
    (∃ kvs : List (String × JValue),
        json_loads (create_payload nm em rs rp ar now) = some (.jobj kvs) ∧
        kvs.map Prod.fst
          = ["action_run_link", "email", "name", "repository_link", "resume_link",
             "timestamp"] ∧
        List.Chain' (· < ·) (kvs.map Prod.fst)) ∧
    outsideChars .outside (create_payload nm em rs rp ar now).data
      = ['\x7b', ':', ',', ':', ',', ':', ',', ':', ',', ':', ',', ':', '\x7d'] := by
  refine ⟨⟨_, json_loads_create_payload nm em rs rp ar now, rfl, ?_⟩,
    outside_create_payload nm em rs rp ar now⟩
  show List.Chain' (· < ·)
    (["action_run_link", "email", "name", "repository_link", "resume_link",
      "timestamp"] : List String)
  simp only [List.chain'_cons, List.chain'_singleton, and_true]
  refine ⟨?_, ?_, ?_, ?_, ?_⟩ <;> (rw [String.lt_iff_toList_lt]; decide)

/-- C6: for every set of string inputs, parsing the output of
`create_payload` as JSON with the reference parser reproduces the five
input field values exactly (together with the formatted timestamp). -/
theorem c6_parse_round_trip (nm em rs rp ar : String) (now : DateTimeUTC) :
    json_loads (create_payload nm em rs rp ar now)
      = some (.jobj [("action_run_link", .jstr ar), ("email", .jstr em), ("name", .jstr nm),
          ("repository_link", .jstr rp), ("resume_link", .jstr rs),
          ("timestamp", .jstr ⟨isoMillisUTC now⟩)]) :=
  json_loads_create_payload nm em rs rp ar now

/-- C7: the timestamp field embedded by `create_payload` is the formatting
of the clock reading taken at that call (fresh per call, UTC, millisecond
precision): it equals `YYYY-MM-DDTHH:MM:SS.mmm` followed by a literal
`Z`, is 24 characters long, and the `+00:00` offset never occurs in it. -/
theorem c7_timestamp_fresh_utc_millis_z (nm em rs rp ar : String) (now : DateTimeUTC)
    (hy : now.year < 10000) (hmo : now.month < 100) (hd : now.day < 100)
    (hh : now.hour < 100) (hmi : now.minute < 100) (hs : now.second < 100)
    (hms : now.millisecond < 1000) :
    ∃ ts : String,
      json_loads (create_payload nm em rs rp ar now)
        = some (.jobj [("action_run_link", .jstr ar), ("email", .jstr em), ("name", .jstr nm),
            ("repository_link", .jstr rp), ("resume_link", .jstr rs),
            ("timestamp", .jstr ts)]) ∧
      ts.data = isoStem now ++ ['Z'] ∧
      isoStem now = padDec 4 now.year ++ '-' :: padDec 2 now.month ++ '-' :: padDec 2 now.day ++
        'T' :: padDec 2 now.hour ++ ':' :: padDec 2 now.minute ++ ':' :: padDec 2 now.second ++
        '.' :: padDec 3 now.millisecond ∧
      ts.length = 24 ∧
      (∀ pre post : List Char, ts.data ≠ pre ++ ['+', '0', '0', ':', '0', '0'] ++ post) := by
  refine ⟨⟨isoMillisUTC now⟩, json_loads_create_payload nm em rs rp ar now,
    isoMillisUTC_eq now, rfl, ?_, ?_⟩
  · show (isoMillisUTC now).length = 24
    exact isoMillisUTC_length now hy hmo hd hh hmi hs hms
  · exact isoMillisUTC_no_offset now

/-- C7 witness: the timestamp property at a concrete instant. -/
theorem c7_timestamp_fresh_utc_millis_z_witness :
    ∃ ts : String,
      json_loads (create_payload "n" "e" "r" "g" "a" ⟨2026, 10, 12, 3, 4, 5, 67⟩)
        = some (.jobj [("action_run_link", .jstr "a"), ("email", .jstr "e"),
            ("name", .jstr "n"), ("repository_link", .jstr "g"), ("resume_link", .jstr "r"),
            ("timestamp", .jstr ts)]) ∧
      ts.data = isoStem ⟨2026, 10, 12, 3, 4, 5, 67⟩ ++ ['Z'] ∧
      isoStem ⟨2026, 10, 12, 3, 4, 5, 67⟩ = padDec 4 2026 ++ '-' :: padDec 2 10 ++ '-' ::
        padDec 2 12 ++ 'T' :: padDec 2 3 ++ ':' :: padDec 2 4 ++ ':' :: padDec 2 5 ++
        '.' :: padDec 3 67 ∧
      ts.length = 24 ∧
      (∀ pre post : List Char, ts.data ≠ pre ++ ['+', '0', '0', ':', '0', '0'] ++ post) :=
  c7_timestamp_fresh_utc_millis_z "n" "e" "r" "g" "a" ⟨2026, 10, 12, 3, 4, 5, 67⟩
    (by decide) (by decide) (by decide) (by decide) (by decide) (by decide) (by decide)

/-- C2: for every payload and secret, `calculate_signature` is the literal
prefix `sha256=` followed by the 64-character lowercase-hex HMAC-SHA256
digest keyed by the secret's UTF-8 bytes over the payload's UTF-8 bytes. -/
theorem c2_signature_tag (p s : String) :
    ∃ hex : String,
      calculate_signature p s = "sha256=" ++ hex ∧
      hex = ⟨hexBytes (hmacSha256 (utf8Bytes s) (utf8Bytes p))⟩ ∧
      hex.length = 64 ∧
      ∀ c ∈ hex.data, isLowerHex c = true := by
  refine ⟨⟨hexBytes (hmacSha256 (utf8Bytes s) (utf8Bytes p))⟩, rfl, rfl, ?_, ?_⟩
  · show (hexBytes (hmacSha256 (utf8Bytes s) (utf8Bytes p))).length = 64
    rw [hexBytes_length, hmacSha256_length]
  · exact hexBytes_chars _ (hmacSha256_bytes _ _)

/-- C3: signing the payload string consisting of a one-pair object (key
`a`, value `b`) with the secret `secret` yields the HMAC-SHA256 value of
this development's RFC-validated reference implementation. -/
theorem c3_known_vector :
    calculate_signature "\x7b\"a\":\"b\"\x7d" "secret"
      = "sha256=5782eb1e80a9c0cc789474a5ab9faf38384866cac1c0151663b2ec9d0082743e" := by
  decide

/-- C8: `calculate_signature` is deterministic — two invocations on equal
(payload, secret) pairs yield identical tags. -/
theorem c8_signature_deterministic (p s p2 s2 : String) (hp : p = p2) (hs : s = s2) :
    calculate_signature p s = calculate_signature p2 s2 := by
  rw [hp, hs]

/-- C8 witness: determinism at a concrete pair. -/
theorem c8_signature_deterministic_witness :
    calculate_signature "x" "y" = calculate_signature "x" "y" :=
  c8_signature_deterministic "x" "y" "x" "y" rfl rfl

/-- C4: an HTTP success response with body consisting of success true and
receipt R123 makes `submit_application` return the receipt string `R123`
and the process exit with code 0. -/
theorem c4_success_receipt :
    submit_application (.success "\x7b\"success\":true,\"receipt\":\"R123\"\x7d")
      = .ok (some (.jstr "R123")) ∧
    mainExitCode (.success "\x7b\"success\":true,\"receipt\":\"R123\"\x7d") = 0 := by
  constructor
  · rfl
  · rfl

/-- C9 counterexample: on an HTTP error response whose body is not valid
UTF-8, the `decode('utf-8')` inside the `except HTTPError` handler raises
a `UnicodeDecodeError` that the sibling `except Exception` does not
catch, so `submit_application` propagates an exception instead of
returning a value. -/
theorem c9_counterexample_undecodable_http_body :
    submit_application (.httpError 500 "Internal Server Error" none)
      = .exn .unicodeDecodeError ∧
    ¬ ∃ v : Option JValue,
        submit_application (.httpError 500 "Internal Server Error" none) = .ok v := by
  refine ⟨rfl, ?_⟩
  rintro ⟨v, h⟩
  exact PyResult.noConfusion h

/-- C9 (amended): for every response outcome `submit_application` returns
normally with a receipt value or `None`, except on a non-success HTTP
response whose error body is not valid UTF-8 — there the
`UnicodeDecodeError` raised while printing the error body inside the
`except HTTPError` handler propagates to the caller. -/
theorem c9_no_exception_escape_amended (o : HttpOutcome) :
    (∃ v : Option JValue, submit_application o = .ok v) ∨
    (∃ code reason, o = .httpError code reason none ∧
      submit_application o = .exn .unicodeDecodeError) := by
  cases o with
  | success body => exact Or.inl (submit_success_returns body)
  | httpError code reason bodyUtf8 =>
    cases bodyUtf8 with
    | some s => exact Or.inl ⟨none, rfl⟩
    | none => exact Or.inr ⟨code, reason, rfl, rfl⟩
  | transportError msg => exact Or.inl ⟨none, rfl⟩
  | undecodableBody => exact Or.inl ⟨none, rfl⟩

/-- C10: a valid JSON object body with a truthy `success` field but no
`receipt` key makes `submit_application` return `None` (the `KeyError` is
absorbed by the generic handler) and the process exit with code 1. -/
theorem c10_truthy_success_missing_receipt (body : String)
    (fields : List (String × JValue))
    (hparse : json_loads body = some (.jobj fields))
    (hsucc : truthy ((dictGet fields "success").getD .null) = true)
    (hrec : dictGet fields "receipt" = none) :
    submit_application (.success body) = .ok none ∧ mainExitCode (.success body) = 1 := by
  have ht := tryBody_keyError body fields hparse hsucc hrec
  have hs := submit_of_tryBody_exn _ _ ht (fun _ _ _ h => PyExn.noConfusion h)
  exact ⟨hs, mainExitCode_of_none _ hs⟩

/-- C10 witness: the missing-receipt behaviour on a concrete body. -/
theorem c10_truthy_success_missing_receipt_witness :
    submit_application (.success "\x7b\"success\":true\x7d") = .ok none ∧
    mainExitCode (.success "\x7b\"success\":true\x7d") = 1 :=
  c10_truthy_success_missing_receipt "\x7b\"success\":true\x7d"
    [("success", .jbool true)] rfl rfl rfl

/-- C5 counterexample: on the body with success true and an empty-string
receipt, `submit_application` returns a (non-None) receipt value, yet the
process exits with code 1 — refuting "exit code 0 exactly when a receipt
is obtained". -/
theorem c5_counterexample_empty_receipt :
    submit_application (.success "\x7b\"success\":true,\"receipt\":\"\"\x7d")
      = .ok (some (.jstr "")) ∧
    mainExitCode (.success "\x7b\"success\":true,\"receipt\":\"\"\x7d") = 1 := by
  constructor
  · rfl
  · rfl

/-- C5 (amended): the process exits with code 0 exactly when a receipt
with a truthy value is obtained (a falsy receipt such as the empty string
also exits 1); on network failure, non-success HTTP status with a
UTF-8-decodable error body, success flag false, or a malformed response
body, `submit_application` returns no receipt (None) and the process
exits with code 1; on a non-success HTTP status whose error body is not
valid UTF-8 the process still exits with code 1, but via a propagating
`UnicodeDecodeError` rather than a `None` return. -/
theorem c5_exit_code_amended (o : HttpOutcome) :
    (mainExitCode o = 0 ↔ ∃ v, submit_application o = .ok (some v) ∧ truthy v = true) ∧
    (∀ msg, o = .transportError msg →
      submit_application o = .ok none ∧ mainExitCode o = 1) ∧
    (∀ code reason body, o = .httpError code reason (some body) →
      submit_application o = .ok none ∧ mainExitCode o = 1) ∧
    (∀ code reason, o = .httpError code reason none →
      submit_application o = .exn .unicodeDecodeError ∧ mainExitCode o = 1) ∧
    (∀ body, o = .success body → json_loads body = none →
      submit_application o = .ok none ∧ mainExitCode o = 1) ∧
    (∀ body fields, o = .success body → json_loads body = some (.jobj fields) →
      dictGet fields "success" = some (.jbool false) →
      submit_application o = .ok none ∧ mainExitCode o = 1) := by
  refine ⟨?_, ?_, ?_, ?_, ?_, ?_⟩
  · cases hs : submit_application o with
    | ok r =>
      cases r with
      | none => simp [mainExitCode, hs]
      | some v =>
        by_cases ht : truthy v = true
        · simp [mainExitCode, hs, ht]
        · simp [mainExitCode, hs, ht]
    | exn e => simp [mainExitCode, hs]
  · rintro msg rfl
    exact ⟨rfl, rfl⟩
  · rintro code reason body rfl
    exact ⟨rfl, rfl⟩
  · rintro code reason rfl
    exact ⟨rfl, rfl⟩
  · rintro body rfl hparse
    have hs := submit_of_tryBody_exn _ _ (tryBody_valueError body hparse)
      (fun _ _ _ h => PyExn.noConfusion h)
    exact ⟨hs, mainExitCode_of_none _ hs⟩
  · rintro body fields rfl hparse hfalse
    have hs := submit_of_tryBody_ok _ _ (tryBody_flag_false body fields hparse hfalse)
    exact ⟨hs, mainExitCode_of_none _ hs⟩

/-- C5 witness: the amended failure clause on a concrete rejected body. -/
theorem c5_exit_code_amended_witness :
    submit_application (.success "\x7b\"success\":false\x7d") = .ok none ∧
    mainExitCode (.success "\x7b\"success\":false\x7d") = 1 :=
  (c5_exit_code_amended (.success "\x7b\"success\":false\x7d")).2.2.2.2.2
    "\x7b\"success\":false\x7d" [("success", .jbool false)] rfl rfl rfl

end B12
